import Mathlib

/-!
Verification development for the OpenPose `setup.py` build/packaging script.

The script has three parts, all shallowly embedded below:
  * `cmake_build_ext` — a `build_ext` subclass driving CMake: `spawn`,
    the computed CMake argument list, and `build_extensions`;
  * `install_data` — a `install_data` subclass supporting directory
    copies: `copy_to` and `run`;
  * the shell-style tokenization of user-supplied extra arguments
    (`shlex.split`) performed in `finalize_options`.

Path arithmetic (`os.path.join`, `os.path.basename`, `change_root`)
is modelled with POSIX semantics, over `String` as a list of
characters.  The file system is abstracted as a map from path to kind
(directory / regular file / other) plus, for directories, the list of
relative file paths inside them (what `distutils.dir_util.copy_tree`
walks and returns).  External processes are abstracted as an oracle
from command vector to outcome (an exit code, or an OS launch error).
-/

/-- Appending strings concatenates the character lists. -/
theorem dataApp (a b : String) : (a ++ b).data = a.data ++ b.data := by
  cases a; cases b; rfl

/-- Rebuilding a string from its character list is the identity. -/
theorem mkData (s : String) : String.mk s.data = s := by
  cases s; rfl

/-- Left cancellation for list append. -/
theorem appCancel {α : Type} : ∀ (a b c : List α), a ++ b = a ++ c → b = c := by
  intro a
  induction a with
  | nil => intro b c h; simpa using h
  | cons x xs ih =>
      intro b c h
      simp only [List.cons_append] at h
      exact ih _ _ (by injection h)

/-- Lemma: `takeWhile` passes over a leading block satisfying the test. -/
theorem twApp (p : Char → Bool) :
    ∀ (l₁ l₂ : List Char), (∀ x ∈ l₁, p x = true) →
      List.takeWhile p (l₁ ++ l₂) = l₁ ++ List.takeWhile p l₂ := by
  intro l₁
  induction l₁ with
  | nil => intro l₂ _; rfl
  | cons x xs ih =>
      intro l₂ h
      have hx : p x = true := h x (by simp)
      simp only [List.cons_append, List.takeWhile_cons, hx, if_true]
      rw [ih l₂ (fun y hy => h y (by simp [hy]))]

/-- Lemma: `take n` of an append stays in the first list when `n` is small enough. -/
theorem takeAppLe {α : Type} : ∀ (n : Nat) (l₁ l₂ : List α), n ≤ l₁.length →
    (l₁ ++ l₂).take n = l₁.take n := by
  intro n
  induction n with
  | zero => intro l₁ l₂ _; simp
  | succ m ih =>
      intro l₁ l₂ h
      cases l₁ with
      | nil => simp at h
      | cons x xs =>
          simp only [List.cons_append, List.take_succ_cons]
          rw [ih xs l₂ (by simpa using h)]

/-- A character-list f cannot start `lit ++ v` when it disagrees with `lit`
on the first `n` characters. -/
theorem noPreOfTake {p lit v : List Char} (n : Nat)
    (hp : n ≤ p.length) (hl : n ≤ lit.length)
    (hne : p.take n ≠ lit.take n) : ¬ p <+: (lit ++ v) := by
  rintro ⟨t, ht⟩
  apply hne
  calc p.take n = (p ++ t).take n := (takeAppLe n p t hp).symm
    _ = (lit ++ v).take n := by rw [ht]
    _ = lit.take n := takeAppLe n lit v hl

/-- Lemma: `lit ++ v` differs from `t` when `lit` does not start `t`. -/
theorem neOfNoPre {lit v t : String} (h : ¬ lit.data <+: t.data) :
    lit ++ v ≠ t := by
  intro he
  exact h ⟨v.data, by rw [← dataApp, he]⟩

/-- Predicate: `needle` occurs as a contiguous substring of `hay`. -/
def strContains (hay needle : String) : Prop := needle.data <:+: hay.data

instance (hay needle : String) : Decidable (strContains hay needle) := by
  unfold strContains; infer_instance

/-! ## POSIX path model (`os.path.join`, `os.path.basename`, `change_root`) -/

/-- Model of `os.path.join(a, b)` for a single extra component, POSIX rules:
an absolute `b` replaces `a`; otherwise a separator is inserted unless
`a` is empty or already ends in one. -/
def joinPath (a b : String) : String :=
  if b.data.head? = some '/' then b
  else if a.data = [] ∨ a.data.getLast? = some '/' then a ++ b
  else a ++ "/" ++ b

/-- Model of `os.path.basename(p)`: everything after the last separator. -/
def basename (p : String) : String :=
  String.mk ((p.data.reverse.takeWhile (fun c => !(c = '/'))).reverse)

/-- A basename never contains a separator, so joining it under any
directory gives a path with that very basename. -/
theorem basename_joinPath (a b : String) (hb : ∀ c ∈ b.data, c ≠ '/') :
    basename (joinPath a b) = b := by
  have hball : ∀ c ∈ b.data.reverse, (!(c = '/')) = true := by
    intro c hc
    simp only [List.mem_reverse] at hc
    simp [hb c hc]
  have hhead : ¬ b.data.head? = some '/' := by
    cases hbd : b.data with
    | nil => simp
    | cons c cs =>
        simp only [List.head?_cons]
        intro hcontr
        exact hb c (by rw [hbd]; simp) (by injection hcontr)
  unfold joinPath
  rw [if_neg hhead]
  by_cases hend : a.data = [] ∨ a.data.getLast? = some '/'
  · rw [if_pos hend]
    have htail : List.takeWhile (fun c => !(c = '/')) a.data.reverse = [] := by
      rcases hend with hnil | hlast
      · simp [hnil]
      · have : a.data.reverse.head? = some '/' := by
          rw [List.head?_reverse]; exact hlast
        cases har : a.data.reverse with
        | nil => simp
        | cons c cs =>
            rw [har] at this
            simp only [List.head?_cons, Option.some.injEq] at this
            simp [List.takeWhile_cons, this]
    unfold basename
    rw [dataApp, List.reverse_append, twApp _ _ _ hball, htail]
    simp [mkData]
  · rw [if_neg hend]
    unfold basename
    have hd : (a ++ "/" ++ b).data = (a.data ++ ['/']) ++ b.data := by
      rw [dataApp, dataApp]
    rw [hd, List.reverse_append, twApp _ _ _ hball]
    have : List.takeWhile (fun c => !(c = '/')) (a.data ++ ['/']).reverse = [] := by
      rw [List.reverse_append]
      simp [List.takeWhile_cons]
    rw [this]
    simp [mkData]

/-! ## `shlex.split` — the shell-style tokenizer used by `finalize_options`

CPython `shlex` in POSIX mode with `whitespace_split=True` and comments
disabled, as invoked by `shlex.split`.  The lexer is a character-level
state machine: between tokens (`ws`), inside a word (`word`), inside a
quoted section (`inQuote q` with `q` the quote character), or right
after an escape character (`inEscape inDouble`, where `inDouble` tells
whether the escape occurred inside double quotes, the only quote kind
in `escapedquotes`).  Inside double quotes a backslash only escapes a
backslash or a double quote and is otherwise kept literally.  A token
that came only from quotes is still emitted even when empty, which the
`quoted` flag tracks. -/

def isWS (c : Char) : Bool := c = ' ' || c = '\t' || c = '\r' || c = '\n'

def isQuote (c : Char) : Bool := c = '\'' || c = '"'

inductive SLState
  | ws
  | word
  | inQuote (q : Char)
  | inEscape (inDouble : Bool)

inductive ShlexErr
  | noClosingQuote
  | noEscapedChar
deriving DecidableEq

def slexGo : List Char → SLState → List Char → Bool → List (List Char) →
    Except ShlexErr (List (List Char))
  | [], SLState.ws, _, _, acc => Except.ok acc.reverse
  | [], SLState.word, tok, quoted, acc =>
      if tok.isEmpty && !quoted then Except.ok acc.reverse
      else Except.ok (tok :: acc).reverse
  | [], SLState.inQuote _, _, _, _ => Except.error ShlexErr.noClosingQuote
  | [], SLState.inEscape _, _, _, _ => Except.error ShlexErr.noEscapedChar
  | c :: cs, SLState.ws, tok, quoted, acc =>
      if isWS c then slexGo cs SLState.ws tok quoted acc
      else if c = '\\' then slexGo cs (SLState.inEscape false) tok quoted acc
      else if isQuote c then slexGo cs (SLState.inQuote c) tok true acc
      else slexGo cs SLState.word (tok ++ [c]) quoted acc
  | c :: cs, SLState.word, tok, quoted, acc =>
      if isWS c then
        (if tok.isEmpty && !quoted then slexGo cs SLState.ws [] false acc
         else slexGo cs SLState.ws [] false (tok :: acc))
      else if isQuote c then slexGo cs (SLState.inQuote c) tok true acc
      else if c = '\\' then slexGo cs (SLState.inEscape false) tok quoted acc
      else slexGo cs SLState.word (tok ++ [c]) quoted acc
  | c :: cs, SLState.inQuote q, tok, quoted, acc =>
      if c = q then slexGo cs SLState.word tok quoted acc
      else if q = '"' && c = '\\' then slexGo cs (SLState.inEscape true) tok quoted acc
      else slexGo cs (SLState.inQuote q) (tok ++ [c]) quoted acc
  | c :: cs, SLState.inEscape inD, tok, quoted, acc =>
      if inD && !(c = '\\' || c = '"') then
        slexGo cs (SLState.inQuote '"') (tok ++ ['\\', c]) quoted acc
      else slexGo cs (if inD then SLState.inQuote '"' else SLState.word) (tok ++ [c]) quoted acc

/-- Model of `shlex.split(s)`: run the lexer from the between-tokens state. -/
def shlexSplit (s : String) : Except ShlexErr (List String) :=
  match slexGo s.data SLState.ws [] false [] with
  | Except.ok ts => Except.ok (ts.map String.mk)
  | Except.error e => Except.error e

/-- Model of `finalize_options`: both user-supplied extra-argument strings are
tokenized with the shell-style tokenizer. -/
def finalize_options (cmake_config_args cmake_build_args : String) :
    Except ShlexErr (List String) × Except ShlexErr (List String) :=
  (shlexSplit cmake_config_args, shlexSplit cmake_build_args)

/-- Model of the Python space-join of a token list, used both by `spawn`
for logging and in the
round-trip property. -/
def joinSpace : List String → String
  | [] => ""
  | [s] => s
  | s :: ss => s ++ " " ++ joinSpace ss

/-- Character-list version of `joinSpace`. -/
def joinChars : List (List Char) → List Char
  | [] => []
  | [t] => t
  | t :: ts => t ++ ' ' :: joinChars ts


theorem joinSpace_data : ∀ ts : List String,
    (joinSpace ts).data = joinChars (ts.map String.data) := by
  intro ts
  induction ts with
  | nil => rfl
  | cons t ts ih =>
      cases ts with
      | nil => rfl
      | cons t2 ts2 =>
          show ((t ++ " " ++ joinSpace (t2 :: ts2))).data = _
          rw [dataApp, dataApp, ih]
          simp [joinChars, List.append_assoc]

/-- A character that cannot interact with the lexer: not whitespace,
not a quote, not the escape character. -/
def plainCharB (c : Char) : Bool := !isWS c && !isQuote c && !(c = '\\')

theorem plain_facts {c : Char} (hc : plainCharB c = true) :
    ¬ (isWS c = true) ∧ ¬ (isQuote c = true) ∧ ¬ (c = '\\') := by
  simp only [plainCharB, Bool.and_eq_true, Bool.not_eq_true'] at hc
  obtain ⟨⟨hws, hq⟩, hesc⟩ := hc
  exact ⟨by simp [hws], by simp [hq], by simpa using hesc⟩

theorem slex_step_plain (c : Char) (cs tok : List Char) (q : Bool)
    (acc : List (List Char)) (hc : plainCharB c = true) :
    slexGo (c :: cs) SLState.word tok q acc =
      slexGo cs SLState.word (tok ++ [c]) q acc := by
  obtain ⟨hws, hq, hesc⟩ := plain_facts hc
  simp only [slexGo]
  rw [if_neg hws, if_neg hq, if_neg hesc]

theorem slex_wsstep_plain (c : Char) (cs : List Char)
    (acc : List (List Char)) (hc : plainCharB c = true) :
    slexGo (c :: cs) SLState.ws [] false acc =
      slexGo cs SLState.word [c] false acc := by
  obtain ⟨hws, hq, hesc⟩ := plain_facts hc
  simp only [slexGo]
  rw [if_neg hws, if_neg hesc, if_neg hq]
  rfl

theorem slex_word_plain :
    ∀ (t rest tok : List Char) (q : Bool) (acc : List (List Char)),
      (∀ c ∈ t, plainCharB c = true) →
      slexGo (t ++ rest) SLState.word tok q acc =
        slexGo rest SLState.word (tok ++ t) q acc := by
  intro t
  induction t with
  | nil => intro rest tok q acc _; simp
  | cons c t2 ih =>
      intro rest tok q acc h
      show slexGo (c :: (t2 ++ rest)) SLState.word tok q acc = _
      rw [slex_step_plain c _ tok q acc (h c (by simp)),
        ih rest (tok ++ [c]) q acc (fun x hx => h x (by simp [hx]))]
      simp

theorem slex_ws_plain (t rest : List Char) (acc : List (List Char))
    (hne : t ≠ []) (h : ∀ c ∈ t, plainCharB c = true) :
    slexGo (t ++ rest) SLState.ws [] false acc =
      slexGo rest SLState.word t false acc := by
  cases t with
  | nil => exact absurd rfl hne
  | cons c t2 =>
      show slexGo (c :: (t2 ++ rest)) SLState.ws [] false acc = _
      rw [slex_wsstep_plain c _ acc (h c (by simp)),
        slex_word_plain t2 rest [c] false acc (fun x hx => h x (by simp [hx]))]
      rfl

theorem slex_join_plain :
    ∀ (ts : List (List Char)) (acc : List (List Char)),
      (∀ t ∈ ts, t ≠ [] ∧ ∀ c ∈ t, plainCharB c = true) →
      slexGo (joinChars ts) SLState.ws [] false acc =
        Except.ok (acc.reverse ++ ts) := by
  intro ts
  induction ts with
  | nil => intro acc _; simp [joinChars, slexGo]
  | cons t ts2 ih =>
      intro acc h
      obtain ⟨hne, hpl⟩ := h t (by simp)
      have hemp : t.isEmpty = false := by
        cases t with
        | nil => exact absurd rfl hne
        | cons _ _ => rfl
      cases ts2 with
      | nil =>
          show slexGo t SLState.ws [] false acc = _
          have h0 := slex_ws_plain t [] acc hne hpl
          simp only [List.append_nil] at h0
          rw [h0]
          simp only [slexGo, hemp, Bool.false_and, Bool.false_eq_true, if_false]
          simp
      | cons t2 ts3 =>
          show slexGo (t ++ ' ' :: joinChars (t2 :: ts3)) SLState.ws [] false acc = _
          rw [slex_ws_plain t _ acc hne hpl]
          simp only [slexGo]
          rw [if_pos (show isWS ' ' = true from rfl)]
          simp only [hemp, Bool.false_and, Bool.false_eq_true, if_false]
          rw [ih (t :: acc) (fun x hx => h x (by simp [hx]))]
          simp

/-! ## `cmake_build_ext` — the CMake build-orchestration adapter -/

/-- The ambient platform state consulted by `build_extensions`:
`platform.system()` and `platform.architecture()[0]`. -/
structure PlatformInfo where
  system : String
  arch : String
deriving DecidableEq

/-- Model of `CMakeExtension`: module name plus the absolute native source root
(`os.path.abspath` is applied by the constructor and is abstracted
here, the field holding its result). -/
structure CMakeExtension where
  name : String
  cmake_source_dir : String
deriving DecidableEq

/-- The profile selection in `build_extensions`:
first `cfg` is set to `Debug` or `Release` from the debug flag, then
unconditionally reassigned to `Release`. -/
def cfgOf (debug : Bool) : String :=
  let cfg := if debug then "Debug" else "Release"
  let cfg := "Release"
  cfg

/-- Python `str.upper()` over the character list. -/
def strUpper (s : String) : String := String.mk (s.data.map Char.toUpper)

/-- The always-computed part of the CMake configure options. -/
def baseArgs (cfg extdir buildTemp pyExe : String) : List String :=
  ["-DCMAKE_BUILD_TYPE=" ++ cfg,
   "-DCMAKE_LIBRARY_OUTPUT_DIRECTORY_" ++ strUpper cfg ++ "=" ++ extdir,
   "-DCMAKE_ARCHIVE_OUTPUT_DIRECTORY_" ++ strUpper cfg ++ "=" ++ buildTemp,
   "-DPYTHON_EXECUTABLE=" ++ pyExe,
   "-DBUILD_PYTHON=ON"]

/-- The options added only when `platform.system()` equals `Windows`. -/
def winArgs (cfg extdir : String) : List String :=
  ["-DCMAKE_WINDOWS_EXPORT_ALL_SYMBOLS=TRUE",
   "-DCMAKE_RUNTIME_OUTPUT_DIRECTORY_" ++ strUpper cfg ++ "=" ++ extdir]

/-- The generator platform: `x64` when the host architecture is `64bit`,
else `Win32`. -/
def winPlat (arch : String) : String :=
  if arch = "64bit" then "x64" else "Win32"

/-- The full computed `cmake_args` list of `build_extensions`, with the
Windows-only block and the additional generator-platform pin when the
detected compiler type is `msvc`. -/
def cmakeArgs (cfg : String) (p : PlatformInfo) (compilerType extdir buildTemp pyExe : String) :
    List String :=
  if p.system = "Windows" then
    if compilerType = "msvc" then
      baseArgs cfg extdir buildTemp pyExe ++ winArgs cfg extdir ++
        ["-DCMAKE_GENERATOR_PLATFORM=" ++ winPlat p.arch]
    else baseArgs cfg extdir buildTemp pyExe ++ winArgs cfg extdir
  else baseArgs cfg extdir buildTemp pyExe

/-- Outcome of attempting `subprocess.call(cmd)`: either the process
ran and returned an exit code, or the OS raised an error (`OSError`,
for example because the executable does not exist). -/
inductive ProcResult
  | launched (exitcode : Int)
  | osFail (msg : String)
deriving DecidableEq

/-- The two distinct raise sites in `spawn`. -/
inductive SpawnErr
  | osError (cmd : List String) (msg : String)
  | exitError (cmd : List String) (exitcode : Int)
deriving DecidableEq

/-- Python `repr` of a string, for the printable characters appearing
in command vectors: the quote character is a single quote unless the
string contains one and no double quote; backslashes and the chosen
quote are escaped. -/
def pyReprStr (s : String) : String :=
  let q : Char := if s.data.contains '\'' && !(s.data.contains '"') then '"' else '\''
  String.mk (q :: (s.data.flatMap (fun c => if c = '\\' || c = q then ['\\', c] else [c])) ++ [q])

def joinComma : List String → String
  | [] => ""
  | [s] => s
  | s :: ss => s ++ ", " ++ joinComma ss

/-- Python `repr` of a list of strings, as the `%r` format renders the
command vector. -/
def pyReprStrList (l : List String) : String :=
  "[" ++ joinComma (l.map pyReprStr) ++ "]"

/-- The messages of the two `DistutilsExecError`s raised by `spawn`:
`"command %r failed: %s" % (cmd, exc.args[-1])` on an `OSError` and
`"command %r failed with exit code %s" % (cmd, exitcode)` on a
non-zero exit code. -/
def errMsg : SpawnErr → String
  | SpawnErr.osError cmd msg => "command " ++ pyReprStrList cmd ++ " failed: " ++ msg
  | SpawnErr.exitError cmd code =>
      "command " ++ pyReprStrList cmd ++ " failed with exit code " ++ toString code

/-- What one call to `cmake_build_ext.spawn` did: the line handed to
`log.info` (always emitted, before anything else) and whether
`subprocess.call` was reached. -/
structure SpawnEvent where
  cmd : List String
  logged : String
  executed : Bool
deriving DecidableEq

/-- Model of `cmake_build_ext.spawn(cmd, dry_run, cwd)`: log the joined command;
in dry-run mode return immediately; otherwise call the process and
translate an `OSError` or a non-zero exit code into the corresponding
`DistutilsExecError`.  The external world is the oracle `exec`. -/
def spawn (exec : List String → ProcResult) (cmd : List String) (dry_run : Bool) :
    SpawnEvent × Except SpawnErr Unit :=
  if dry_run then ({ cmd := cmd, logged := joinSpace cmd, executed := false }, Except.ok ())
  else
    match exec cmd with
    | ProcResult.osFail msg =>
        ({ cmd := cmd, logged := joinSpace cmd, executed := true },
         Except.error (SpawnErr.osError cmd msg))
    | ProcResult.launched code =>
        ({ cmd := cmd, logged := joinSpace cmd, executed := true },
         if code = 0 then Except.ok ()
         else Except.error (SpawnErr.exitError cmd code))

/-- The availability check at the top of `build_extensions`: spawn
`cmake --version` (note: without the dry-run flag) and turn ANY
`DistutilsExecError` into the single message
`cannot find CMake executable`. -/
def checkCMake (exec : List String → ProcResult) : SpawnEvent × Except String Unit :=
  let r := spawn exec ["cmake", "--version"] false
  (r.1, match r.2 with
        | Except.error _ => Except.error "cannot find CMake executable"
        | Except.ok _ => Except.ok ())

/-- The state of the `build_ext` command object that
`build_extensions` reads: option flags, ambient platform and compiler,
directories, the tokenized user extra arguments and the extension
list.  `extFullpathDir` abstracts
`os.path.abspath(os.path.dirname(self.get_ext_fullpath(name)))`, a
distutils-provided path computation. -/
structure BuildExtCtx where
  debug : Bool
  dry_run : Bool
  plat : PlatformInfo
  compilerType : String
  build_temp : String
  pyExe : String
  extFullpathDir : String → String
  cmake_config_args : List String
  cmake_build_args : List String
  extensions : List CMakeExtension

/-- Model of `extdir`: the directory containing the extension, with the
literal `openpose` subdirectory appended. -/
def extdirOf (ctx : BuildExtCtx) (ext : CMakeExtension) : String :=
  joinPath (ctx.extFullpathDir ext.name) "openpose"

/-- The configure invocation:
the tool name, the source root, the computed `cmake_args` and the user
extra configure arguments. -/
def configureCmd (ctx : BuildExtCtx) (ext : CMakeExtension) : List String :=
  ["cmake", ext.cmake_source_dir] ++
    cmakeArgs (cfgOf ctx.debug) ctx.plat ctx.compilerType (extdirOf ctx ext)
      ctx.build_temp ctx.pyExe ++
    ctx.cmake_config_args

/-- The build invocation:
the tool name, the build request for the current tree, the profile
selector and the user extra build arguments. -/
def buildCmdOf (ctx : BuildExtCtx) : List String :=
  ["cmake", "--build", ".", "--config", cfgOf ctx.debug] ++ ctx.cmake_build_args

/-- Observable steps taken by `build_extensions`: a spawn, or the
`os.makedirs(self.build_temp, exist_ok=True)` call. -/
inductive BEvent
  | spawn (ev : SpawnEvent)
  | makedirs (dir : String) (exist_ok : Bool)
deriving DecidableEq

/-- The per-extension loop of `build_extensions`: create the scratch
build directory (unconditionally, with `exist_ok=True`), then the
configure spawn and the build spawn, both passed `dry_run=self.dry_run`
and run in `self.build_temp`; an error aborts and propagates. -/
def beLoop (ctx : BuildExtCtx) (exec : List String → ProcResult) :
    List CMakeExtension → List BEvent × Except String Unit
  | [] => ([], Except.ok ())
  | ext :: rest =>
      let r1 := spawn exec (configureCmd ctx ext) ctx.dry_run
      match r1.2 with
      | Except.error e =>
          ([BEvent.makedirs ctx.build_temp true, BEvent.spawn r1.1], Except.error (errMsg e))
      | Except.ok _ =>
          let r2 := spawn exec (buildCmdOf ctx) ctx.dry_run
          match r2.2 with
          | Except.error e =>
              ([BEvent.makedirs ctx.build_temp true, BEvent.spawn r1.1, BEvent.spawn r2.1],
               Except.error (errMsg e))
          | Except.ok _ =>
              let rs := beLoop ctx exec rest
              (BEvent.makedirs ctx.build_temp true :: BEvent.spawn r1.1 :: BEvent.spawn r2.1 ::
                rs.1, rs.2)

/-- Model of `build_extensions`: the availability check first (its failure is
replaced by the tool-not-found error), then the loop over extensions. -/
def build_extensions (ctx : BuildExtCtx) (exec : List String → ProcResult) :
    List BEvent × Except String Unit :=
  let r0 := checkCMake exec
  match r0.2 with
  | Except.error m => ([BEvent.spawn r0.1], Except.error m)
  | Except.ok _ =>
      let rs := beLoop ctx exec ctx.extensions
      (BEvent.spawn r0.1 :: rs.1, rs.2)

/-! ## `install_data` — the artifact installer

`os.path.isdir` / `os.path.isfile` classify a path as directory,
regular file, or neither; `kind` abstracts that classification.
`treeFiles` gives, for a directory, the relative paths of the files
inside it that `distutils.dir_util.copy_tree` copies and returns.
`distutils.util.convert_path` is the identity on POSIX. -/

inductive FileKind
  | dir
  | file
  | other
deriving DecidableEq

structure FS where
  kind : String → FileKind
  treeFiles : String → List String

/-- What `copy_to` returns in its first tuple slot: the list of copied
files from `copy_tree` for a directory source, or the single
destination path from `copy_file` for a file source. -/
inductive CopyOut
  | tree (files : List String)
  | file (dest : String)
deriving DecidableEq

/-- The `DistutilsFileError` message of `copy_to`. -/
def invalidSrcMsg (p : String) : String :=
  "can\x27t copy \x27" ++ p ++ "\x27: doesn\x27t exist or not a regular file or a directory"

/-- Model of `install_data.copy_to(file_or_dir, dst_dir)`: a directory source is
copied as a whole tree under `dst_dir/basename(file_or_dir)` (returning
the file list of `copy_tree`, paired with 1); a regular file is copied
into `dst_dir` (returning the destination-and-flag pair of `copy_file`);
anything
else raises a `DistutilsFileError` naming the path. -/
def copy_to (fs : FS) (file_or_dir dst_dir : String) : Except String (CopyOut × Int) :=
  match fs.kind file_or_dir with
  | FileKind.dir =>
      Except.ok (CopyOut.tree ((fs.treeFiles file_or_dir).map
        (fun rel => joinPath (joinPath dst_dir (basename file_or_dir)) rel)), 1)
  | FileKind.file =>
      Except.ok (CopyOut.file (joinPath dst_dir (basename file_or_dir)), 1)
  | FileKind.other => Except.error (invalidSrcMsg file_or_dir)

/-- An element of `self.outfiles`: `run` appends either a single path
string (from `copy_file`, or the registered empty directory) or, for a
directory source, the whole `copy_tree` result — a list object — as one
element. -/
inductive OutEntry
  | path (p : String)
  | paths (ps : List String)
deriving DecidableEq

def outEntryOf : CopyOut → OutEntry
  | CopyOut.tree fsls => OutEntry.paths fsls
  | CopyOut.file p => OutEntry.path p

/-- Discriminator: `true` exactly when the outfiles element is a single
path string. -/
def isSinglePath : OutEntry → Bool
  | OutEntry.path _ => true
  | OutEntry.paths _ => false

/-- A `data_files` manifest entry: a bare path, or a pair of a target
directory and a list of sources. -/
inductive ManifestEntry
  | bare (p : String)
  | pair (target : String) (sources : List String)
deriving DecidableEq

/-- The `install_data` command state `run` reads. `root` is the
staging root override (`self.root`); `warn_dir` enables the diagnostic
for bare entries. -/
structure InstallCtx where
  install_dir : String
  root : Option String
  warn_dir : Bool
deriving DecidableEq

/-- The observable side effects of `run`: directory creation
(`self.mkpath`), a copy (`self.copy_to`), or a diagnostic warning. -/
inductive IEvent
  | mkpath (dir : String)
  | copy (src : String) (dstDir : String)
  | warn (msg : String)
deriving DecidableEq

/-- Resolution of the target directory of a pair entry: a relative target
nests under the install dir; an absolute one is rebased under the
root override when one is active (`distutils.util.change_root` on
POSIX joins the new root with the path minus its leading slash). -/
def resolveDir (ctx : InstallCtx) (target : String) : String :=
  if target.data.head? = some '/' then
    match ctx.root with
    | some r => joinPath r (target.drop 1)
    | none => target
  else joinPath ctx.install_dir target

/-- The warning `run` emits for a bare entry when `warn_dir` is set. -/
def warnMsg (f install_dir : String) : String :=
  "setup script did not provide a directory for \x27" ++ f ++
    "\x27 -- installing right in \x27" ++ install_dir ++ "\x27"

/-- The inner loop of `run` over the source list of a pair entry:
copy each source into the resolved directory, appending each
`copy_to` result to the output list; a failure aborts. -/
def copySources (fs : FS) (d : String) : List String →
    List IEvent × List OutEntry × Except String Unit
  | [] => ([], [], Except.ok ())
  | s :: ss =>
      match copy_to fs s d with
      | Except.ok (out, _) =>
          let rest := copySources fs d ss
          (IEvent.copy s d :: rest.1, outEntryOf out :: rest.2.1, rest.2.2)
      | Except.error m => ([], [], Except.error m)

/-- Processing of one manifest entry by `run`: a bare path is copied
straight into the install dir (after the optional warning); a pair
entry resolves and creates its target directory, then either registers
the empty directory as the single produced artifact or copies every
source into it. -/
def processEntry (ctx : InstallCtx) (fs : FS) :
    ManifestEntry → List IEvent × List OutEntry × Except String Unit
  | ManifestEntry.bare p =>
      let warnEvs := if ctx.warn_dir then [IEvent.warn (warnMsg p ctx.install_dir)] else []
      match copy_to fs p ctx.install_dir with
      | Except.ok (out, _) =>
          (warnEvs ++ [IEvent.copy p ctx.install_dir], [outEntryOf out], Except.ok ())
      | Except.error m => (warnEvs, [], Except.error m)
  | ManifestEntry.pair t srcs =>
      let d := resolveDir ctx t
      if srcs = [] then ([IEvent.mkpath d], [OutEntry.path d], Except.ok ())
      else
        let rest := copySources fs d srcs
        (IEvent.mkpath d :: rest.1, rest.2.1, rest.2.2)

/-- Folding `processEntry` over the manifest, accumulating events and
outputs; the first failure aborts, keeping what was already appended. -/
def runFold (ctx : InstallCtx) (fs : FS) :
    List ManifestEntry → List IEvent × List OutEntry × Except String Unit
  | [] => ([], [], Except.ok ())
  | e :: es =>
      let r := processEntry ctx fs e
      match r.2.2 with
      | Except.error m => (r.1, r.2.1, Except.error m)
      | Except.ok _ =>
          let rs := runFold ctx fs es
          (r.1 ++ rs.1, r.2.1 ++ rs.2.1, rs.2.2)

/-- Model of `install_data.run`: create the root install directory, then
process
every manifest entry in order. -/
def run_install (ctx : InstallCtx) (fs : FS) (manifest : List ManifestEntry) :
    List IEvent × List OutEntry × Except String Unit :=
  let r := runFold ctx fs manifest
  (IEvent.mkpath ctx.install_dir :: r.1, r.2.1, r.2.2)

/-- The outputs one successfully processed manifest entry contributes,
as a function of the file-system shape (used to characterize
the output list of `run_install`). -/
def outEntryOfSrc (fs : FS) (d s : String) : OutEntry :=
  match fs.kind s with
  | FileKind.dir =>
      OutEntry.paths ((fs.treeFiles s).map
        (fun rel => joinPath (joinPath d (basename s)) rel))
  | FileKind.file => OutEntry.path (joinPath d (basename s))
  | FileKind.other => OutEntry.path s

def entryOuts (ctx : InstallCtx) (fs : FS) : ManifestEntry → List OutEntry
  | ManifestEntry.bare p => [outEntryOfSrc fs ctx.install_dir p]
  | ManifestEntry.pair t srcs =>
      if srcs = [] then [OutEntry.path (resolveDir ctx t)]
      else srcs.map (outEntryOfSrc fs (resolveDir ctx t))

/-! ## Claim theorems -/

/-- C1: for every value of the build_ext debug flag, the configure
invocation passes `-DCMAKE_BUILD_TYPE=Release` and the build invocation
passes `--config Release`; the reassigned profile string is `Release`
regardless of the debug selection. -/
theorem c1_release_profile (ctx : BuildExtCtx) (ext : CMakeExtension) (d : Bool) :
    cfgOf d = "Release" ∧
    "-DCMAKE_BUILD_TYPE=Release" ∈ configureCmd ctx ext ∧
    buildCmdOf ctx = ["cmake", "--build", ".", "--config", "Release"] ++ ctx.cmake_build_args := by
  refine ⟨rfl, ?_, rfl⟩
  unfold configureCmd
  have hmem : "-DCMAKE_BUILD_TYPE=Release" ∈
      cmakeArgs (cfgOf ctx.debug) ctx.plat ctx.compilerType (extdirOf ctx ext)
        ctx.build_temp ctx.pyExe := by
    unfold cmakeArgs
    by_cases hw : ctx.plat.system = "Windows"
    · rw [if_pos hw]
      by_cases hm : ctx.compilerType = "msvc"
      · rw [if_pos hm]
        exact List.mem_append_left _ (List.mem_append_left _ (List.Mem.head _))
      · rw [if_neg hm]
        exact List.mem_append_left _ (List.Mem.head _)
    · rw [if_neg hw]
      exact List.Mem.head _
  exact List.mem_append_left _ (List.mem_append_right _ hmem)

/-- C2: on any platform other than Windows the computed configure
argument list contains neither the symbol-export option nor any option
starting with the runtime-output-directory name. -/
theorem c2_nonwindows_flags (d : Bool) (p : PlatformInfo) (ct e b py arg : String)
    (hp : p.system ≠ "Windows")
    (ha : arg ∈ cmakeArgs (cfgOf d) p ct e b py) :
    arg ≠ "-DCMAKE_WINDOWS_EXPORT_ALL_SYMBOLS=TRUE" ∧
    ¬ ("-DCMAKE_RUNTIME_OUTPUT_DIRECTORY_").data <+: arg.data := by
  unfold cmakeArgs at ha
  rw [if_neg hp] at ha
  have hcfg : cfgOf d = "Release" := rfl
  rw [hcfg] at ha
  unfold baseArgs at ha
  have hup : strUpper "Release" = "RELEASE" := rfl
  rw [hup] at ha
  simp only [List.mem_cons, List.not_mem_nil, or_false] at ha
  rcases ha with rfl | rfl | rfl | rfl | rfl
  · exact ⟨by decide, by decide⟩
  · constructor
    · exact neOfNoPre (by decide)
    · rw [dataApp]
      exact noPreOfTake 9 (by decide) (by decide) (by decide)
  · constructor
    · exact neOfNoPre (by decide)
    · rw [dataApp]
      exact noPreOfTake 9 (by decide) (by decide) (by decide)
  · constructor
    · exact neOfNoPre (by decide)
    · rw [dataApp]
      exact noPreOfTake 3 (by decide) (by decide) (by decide)
  · exact ⟨by decide, by decide⟩

/-- C2 witness: the first computed option on Linux, checked concretely. -/
theorem c2_witness :
    "-DCMAKE_BUILD_TYPE=Release" ≠ "-DCMAKE_WINDOWS_EXPORT_ALL_SYMBOLS=TRUE" ∧
    ¬ ("-DCMAKE_RUNTIME_OUTPUT_DIRECTORY_").data <+: ("-DCMAKE_BUILD_TYPE=Release").data :=
  c2_nonwindows_flags false ⟨"Linux", "64bit"⟩ "unix" "/b/lib/openpose" "/b/temp"
    "/usr/bin/python3" "-DCMAKE_BUILD_TYPE=Release" (by decide) (by decide)

/-- The two failure messages of `spawn` can never coincide: after the
shared `command %r failed` part one continues with `: ` and the other
with ` with exit code `. -/
theorem errMsg_kinds_differ (cmd : List String) (msg : String) (code : Int) :
    errMsg (SpawnErr.osError cmd msg) ≠ errMsg (SpawnErr.exitError cmd code) := by
  intro h
  have hd := congrArg String.data h
  simp only [errMsg, dataApp, List.append_assoc] at hd
  have h1 := appCancel _ _ _ hd
  have h2 := appCancel _ _ _ h1
  simp only [List.cons_append, List.nil_append, List.cons.injEq] at h2
  obtain ⟨-, -, -, -, -, -, -, hbad, -⟩ := h2
  exact absurd hbad (by decide)

/-- The exit-failure message carries the rendered command vector. -/
theorem errMsg_has_cmd (cmd : List String) (code : Int) :
    strContains (errMsg (SpawnErr.exitError cmd code)) (pyReprStrList cmd) := by
  refine ⟨("command ").data, (" failed with exit code ").data ++ (toString code).data, ?_⟩
  simp [errMsg, dataApp, List.append_assoc]

/-- The exit-failure message carries the decimal exit code. -/
theorem errMsg_has_code (cmd : List String) (code : Int) :
    strContains (errMsg (SpawnErr.exitError cmd code)) (toString code) := by
  refine ⟨("command ").data ++ (pyReprStrList cmd).data ++ (" failed with exit code ").data,
    [], ?_⟩
  simp [errMsg, dataApp, List.append_assoc]

/-- C3 counterexample: when the spawned `cmake --version` availability
check runs and exits with code 2 — a tool that runs but fails —
`build_extensions` surfaces the tool-not-found message, which carries
neither the command vector nor the exit code, instead of a build
failure. -/
theorem c3_counterexample :
    (checkCMake (fun _ => ProcResult.launched 2)).2 =
      Except.error "cannot find CMake executable" ∧
    (spawn (fun _ => ProcResult.launched 2) ["cmake", "--version"] false).2 =
      Except.error (SpawnErr.exitError ["cmake", "--version"] 2) ∧
    ¬ strContains "cannot find CMake executable" "2" ∧
    ¬ strContains "cannot find CMake executable" (pyReprStrList ["cmake", "--version"]) :=
  ⟨rfl, rfl, by decide, by decide⟩

/-- C3 (amended): `spawn` itself reports an OS launch failure and a
non-zero exit code as distinct errors — the latter a build failure
carrying the command vector and the exit code — but the initial
availability check collapses either failure kind of its
`cmake --version` spawn into the single tool-not-found error. -/
theorem c3_amended_spawn_errors (cmd : List String) (msg : String) (code : Int)
    (hnz : code ≠ 0) :
    (spawn (fun _ => ProcResult.osFail msg) cmd false).2 =
      Except.error (SpawnErr.osError cmd msg) ∧
    (spawn (fun _ => ProcResult.launched code) cmd false).2 =
      Except.error (SpawnErr.exitError cmd code) ∧
    SpawnErr.osError cmd msg ≠ SpawnErr.exitError cmd code ∧
    errMsg (SpawnErr.osError cmd msg) ≠ errMsg (SpawnErr.exitError cmd code) ∧
    strContains (errMsg (SpawnErr.exitError cmd code)) (pyReprStrList cmd) ∧
    strContains (errMsg (SpawnErr.exitError cmd code)) (toString code) ∧
    (checkCMake (fun _ => ProcResult.osFail msg)).2 =
      Except.error "cannot find CMake executable" ∧
    (checkCMake (fun _ => ProcResult.launched code)).2 =
      Except.error "cannot find CMake executable" := by
  refine ⟨by simp [spawn], by simp [spawn, hnz], by simp, errMsg_kinds_differ cmd msg code,
    errMsg_has_cmd cmd code, errMsg_has_code cmd code, by simp [checkCMake, spawn],
    by simp [checkCMake, spawn, hnz]⟩

/-- C3 witness: the amended statement at a concrete command, OS error
text and exit code. -/
theorem c3_amended_witness :
    (spawn (fun _ => ProcResult.osFail "No such file or directory")
        ["cmake", "--version"] false).2 =
      Except.error (SpawnErr.osError ["cmake", "--version"] "No such file or directory") ∧
    (spawn (fun _ => ProcResult.launched 2) ["cmake", "--version"] false).2 =
      Except.error (SpawnErr.exitError ["cmake", "--version"] 2) ∧
    SpawnErr.osError ["cmake", "--version"] "No such file or directory" ≠
      SpawnErr.exitError ["cmake", "--version"] 2 ∧
    errMsg (SpawnErr.osError ["cmake", "--version"] "No such file or directory") ≠
      errMsg (SpawnErr.exitError ["cmake", "--version"] 2) ∧
    strContains (errMsg (SpawnErr.exitError ["cmake", "--version"] 2))
      (pyReprStrList ["cmake", "--version"]) ∧
    strContains (errMsg (SpawnErr.exitError ["cmake", "--version"] 2)) (toString (2 : Int)) ∧
    (checkCMake (fun _ => ProcResult.osFail "No such file or directory")).2 =
      Except.error "cannot find CMake executable" ∧
    (checkCMake (fun _ => ProcResult.launched 2)).2 =
      Except.error "cannot find CMake executable" :=
  c3_amended_spawn_errors ["cmake", "--version"] "No such file or directory" 2 (by decide)

/-- C4: whenever the spawned process runs and returns a non-zero exit
code, `spawn` raises a `DistutilsExecError` whose message contains the
rendered argument vector and the decimal exit code. -/
theorem c4_exit_error (exec : List String → ProcResult) (cmd : List String) (code : Int)
    (hrun : exec cmd = ProcResult.launched code) (hnz : code ≠ 0) :
    (spawn exec cmd false).2 = Except.error (SpawnErr.exitError cmd code) ∧
    strContains (errMsg (SpawnErr.exitError cmd code)) (pyReprStrList cmd) ∧
    strContains (errMsg (SpawnErr.exitError cmd code)) (toString code) :=
  ⟨by simp [spawn, hrun, hnz], errMsg_has_cmd cmd code, errMsg_has_code cmd code⟩

/-- C4 witness: a build command failing with exit code 2. -/
theorem c4_witness :
    (spawn (fun _ => ProcResult.launched 2) ["cmake", "--build", "."] false).2 =
      Except.error (SpawnErr.exitError ["cmake", "--build", "."] 2) ∧
    strContains (errMsg (SpawnErr.exitError ["cmake", "--build", "."] 2))
      (pyReprStrList ["cmake", "--build", "."]) ∧
    strContains (errMsg (SpawnErr.exitError ["cmake", "--build", "."] 2))
      (toString (2 : Int)) :=
  c4_exit_error (fun _ => ProcResult.launched 2) ["cmake", "--build", "."] 2 rfl (by decide)

theorem map_mk_data : ∀ ts : List String, (ts.map String.data).map String.mk = ts := by
  intro ts
  induction ts with
  | nil => rfl
  | cons t ts ih => simp [ih, mkData]

/-- C5 counterexample: on an input with a quoted substring containing
an embedded space, tokenizing, re-joining with spaces and tokenizing
again splits the quoted token apart, so the round trip does not
preserve argument boundaries. -/
theorem c5_counterexample :
    shlexSplit "a \"b c\"" = Except.ok ["a", "b c"] ∧
    joinSpace ["a", "b c"] = "a b c" ∧
    shlexSplit (joinSpace ["a", "b c"]) = Except.ok ["a", "b", "c"] ∧
    (["a", "b", "c"] : List String) ≠ ["a", "b c"] :=
  ⟨rfl, rfl, rfl, by decide⟩

/-- C5 (amended): the tokenizer keeps a quoted substring with embedded
spaces as one token, but the space-rejoin round trip only returns the
same token list when every token is nonempty and free of whitespace,
quote and escape characters; for such token lists the round trip is
the identity. -/
theorem c5_amended_round_trip (s : String) (ts : List String)
    (hsplit : shlexSplit s = Except.ok ts)
    (hplain : ∀ t ∈ ts, t ≠ "" ∧ ∀ c ∈ t.data, plainCharB c = true) :
    shlexSplit (joinSpace ts) = shlexSplit s := by
  rw [hsplit]
  have hpl2 : ∀ t ∈ ts.map String.data, t ≠ [] ∧ ∀ c ∈ t, plainCharB c = true := by
    intro t ht
    simp only [List.mem_map] at ht
    obtain ⟨t0, ht0, rfl⟩ := ht
    obtain ⟨hne, hp⟩ := hplain t0 ht0
    refine ⟨?_, hp⟩
    intro hcon
    apply hne
    rw [← mkData t0, hcon]
  unfold shlexSplit
  rw [joinSpace_data, slex_join_plain (ts.map String.data) [] hpl2]
  show Except.ok ((ts.map String.data).map String.mk) = Except.ok ts
  rw [map_mk_data]

/-- C5 witness: two plain configure flags survive the round trip. -/
theorem c5_amended_witness :
    shlexSplit (joinSpace ["-DBUILD_PYTHON=ON", "-DUSE_CUDNN=OFF"]) =
      shlexSplit "-DBUILD_PYTHON=ON -DUSE_CUDNN=OFF" :=
  c5_amended_round_trip "-DBUILD_PYTHON=ON -DUSE_CUDNN=OFF"
    ["-DBUILD_PYTHON=ON", "-DUSE_CUDNN=OFF"] rfl (by decide)

theorem basename_no_slash (p : String) : ∀ c ∈ (basename p).data, c ≠ '/' := by
  intro c hc
  have hc2 : c ∈ (p.data.reverse.takeWhile (fun c => !(c = '/'))).reverse := hc
  simp only [List.mem_reverse] at hc2
  have := List.mem_takeWhile_imp hc2
  simpa using this

/-- C6: `copy_to` is a trichotomy on the source kind: a directory is
tree-copied under `dst_dir/basename(src)` (whose basename is the
basename of the source, one level under the target); a regular file is
copied into `dst_dir`; anything else raises the file error naming the
path. -/
theorem c6_copy_to_trichotomy (fs : FS) (f d : String) :
    (fs.kind f = FileKind.dir →
      copy_to fs f d = Except.ok (CopyOut.tree ((fs.treeFiles f).map
        (fun rel => joinPath (joinPath d (basename f)) rel)), 1) ∧
      basename (joinPath d (basename f)) = basename f) ∧
    (fs.kind f = FileKind.file →
      copy_to fs f d = Except.ok (CopyOut.file (joinPath d (basename f)), 1)) ∧
    (fs.kind f = FileKind.other →
      copy_to fs f d = Except.error (invalidSrcMsg f) ∧
      strContains (invalidSrcMsg f) f) := by
  refine ⟨fun h => ⟨?_, ?_⟩, fun h => ?_, fun h => ⟨?_, ?_⟩⟩
  · simp [copy_to, h]
  · exact basename_joinPath d (basename f) (basename_no_slash f)
  · simp [copy_to, h]
  · simp [copy_to, h]
  · refine ⟨("can\x27t copy \x27").data,
      ("\x27: doesn\x27t exist or not a regular file or a directory").data, ?_⟩
    simp [invalidSrcMsg, dataApp, List.append_assoc]

def fs6 : FS :=
  { kind := fun p =>
      if p = "models" then FileKind.dir
      else if p = "readme.txt" then FileKind.file
      else FileKind.other,
    treeFiles := fun p => if p = "models" then ["pose/pose.caffemodel"] else [] }

/-- C6 witness: all three branches at concrete paths. -/
theorem c6_witness :
    copy_to fs6 "models" "/dst" =
      Except.ok (CopyOut.tree ["/dst/models/pose/pose.caffemodel"], 1) ∧
    basename (joinPath "/dst" (basename "models")) = basename "models" ∧
    copy_to fs6 "readme.txt" "/dst" = Except.ok (CopyOut.file "/dst/readme.txt", 1) ∧
    copy_to fs6 "missing" "/dst" = Except.error (invalidSrcMsg "missing") ∧
    strContains (invalidSrcMsg "missing") "missing" := by
  obtain ⟨hd, -, -⟩ := c6_copy_to_trichotomy fs6 "models" "/dst"
  obtain ⟨-, hf, -⟩ := c6_copy_to_trichotomy fs6 "readme.txt" "/dst"
  obtain ⟨-, -, ho⟩ := c6_copy_to_trichotomy fs6 "missing" "/dst"
  obtain ⟨hd1, hd2⟩ := hd rfl
  obtain ⟨ho1, ho2⟩ := ho rfl
  exact ⟨hd1, hd2, hf rfl, ho1, ho2⟩

theorem runFold_append (ctx : InstallCtx) (fs : FS) :
    ∀ (es1 es2 : List ManifestEntry),
      (runFold ctx fs es1).2.2 = Except.ok () →
      runFold ctx fs (es1 ++ es2) =
        ((runFold ctx fs es1).1 ++ (runFold ctx fs es2).1,
         (runFold ctx fs es1).2.1 ++ (runFold ctx fs es2).2.1,
         (runFold ctx fs es2).2.2) := by
  intro es1
  induction es1 with
  | nil => intro es2 _; simp [runFold]
  | cons e es ih =>
      intro es2 hok
      cases hpe : (processEntry ctx fs e).2.2 with
      | error m => simp [runFold, hpe] at hok
      | ok u =>
          cases u
          have hok2 : (runFold ctx fs es).2.2 = Except.ok () := by
            simpa [runFold, hpe] using hok
          show runFold ctx fs (e :: (es ++ es2)) = _
          simp [runFold, hpe, ih es2 hok2, List.append_assoc]

/-- C7: appending a manifest entry with an empty source list to a
manifest that installs cleanly makes `run` create the resolved target
directory and append exactly one output entry — the directory path
itself — with no copy performed. -/
theorem c7_empty_sources (ctx : InstallCtx) (fs : FS) (es : List ManifestEntry) (t : String)
    (hok : (runFold ctx fs es).2.2 = Except.ok ()) :
    run_install ctx fs (es ++ [ManifestEntry.pair t []]) =
      (IEvent.mkpath ctx.install_dir ::
        ((runFold ctx fs es).1 ++ [IEvent.mkpath (resolveDir ctx t)]),
       (runFold ctx fs es).2.1 ++ [OutEntry.path (resolveDir ctx t)],
       Except.ok ()) := by
  unfold run_install
  rw [runFold_append ctx fs es [ManifestEntry.pair t []] hok]
  simp [runFold, processEntry]

def ctx7 : InstallCtx := ⟨"/dst", none, false⟩

def fsEmpty : FS := ⟨fun _ => FileKind.other, fun _ => []⟩

/-- C7 witness: a single empty-source entry on an empty manifest. -/
theorem c7_witness :
    run_install ctx7 fsEmpty [ManifestEntry.pair "openpose" []] =
      ([IEvent.mkpath "/dst", IEvent.mkpath "/dst/openpose"],
       [OutEntry.path "/dst/openpose"], Except.ok ()) :=
  c7_empty_sources ctx7 fsEmpty [] "openpose" rfl

/-- C8 counterexample: the repository manifest entry
pairing target `openpose` with source `models`, a directory, makes `run`
append
the `copy_tree` result — a list of file paths — as a single outfiles
element, so the output list is not one path string per produced file or
directory (and the created directory path itself never appears). -/
theorem c8_counterexample :
    (run_install ctx7 fs6 [ManifestEntry.pair "openpose" ["models"]]).2.1 =
      [OutEntry.paths ["/dst/openpose/models/pose/pose.caffemodel"]] ∧
    ((run_install ctx7 fs6
        [ManifestEntry.pair "openpose" ["models"]]).2.1.all isSinglePath) = false :=
  ⟨rfl, rfl⟩

theorem copy_to_outEntry (fs : FS) (s d : String) (out : CopyOut) (n : Int)
    (h : copy_to fs s d = Except.ok (out, n)) : outEntryOf out = outEntryOfSrc fs d s := by
  unfold copy_to at h
  unfold outEntryOfSrc
  cases hk : fs.kind s <;> rw [hk] at h
  · injection h with h
    rw [show out = CopyOut.tree ((fs.treeFiles s).map
      (fun rel => joinPath (joinPath d (basename s)) rel)) from (congrArg Prod.fst h).symm]
    rfl
  · injection h with h
    rw [show out = CopyOut.file (joinPath d (basename s)) from (congrArg Prod.fst h).symm]
    rfl
  · exact absurd h (by simp)

theorem copySources_ok (fs : FS) (d : String) :
    ∀ srcs, (copySources fs d srcs).2.2 = Except.ok () →
      (copySources fs d srcs).2.1 = srcs.map (outEntryOfSrc fs d) := by
  intro srcs
  induction srcs with
  | nil => intro _; rfl
  | cons s ss ih =>
      intro h
      cases hc : copy_to fs s d with
      | error m => simp [copySources, hc] at h
      | ok pr =>
          obtain ⟨out, n⟩ := pr
          have h2 : (copySources fs d ss).2.2 = Except.ok () := by
            simpa [copySources, hc] using h
          simp [copySources, hc, ih h2, copy_to_outEntry fs s d out n hc]

theorem processEntry_ok (ctx : InstallCtx) (fs : FS) (e : ManifestEntry)
    (h : (processEntry ctx fs e).2.2 = Except.ok ()) :
    (processEntry ctx fs e).2.1 = entryOuts ctx fs e := by
  cases e with
  | bare p =>
      cases hc : copy_to fs p ctx.install_dir with
      | error m => simp [processEntry, hc] at h
      | ok pr =>
          obtain ⟨out, n⟩ := pr
          simp [processEntry, hc, entryOuts,
            copy_to_outEntry fs p ctx.install_dir out n hc]
  | pair t srcs =>
      by_cases hs : srcs = []
      · subst hs
        simp [processEntry, entryOuts]
      · have h2 : (copySources fs (resolveDir ctx t) srcs).2.2 = Except.ok () := by
          simpa [processEntry, hs] using h
        simp [processEntry, hs, entryOuts, copySources_ok fs (resolveDir ctx t) srcs h2]

theorem runFold_ok_outs (ctx : InstallCtx) (fs : FS) :
    ∀ es, (runFold ctx fs es).2.2 = Except.ok () →
      (runFold ctx fs es).2.1 = es.flatMap (entryOuts ctx fs) := by
  intro es
  induction es with
  | nil => intro _; rfl
  | cons e es2 ih =>
      intro h
      cases hpe : (processEntry ctx fs e).2.2 with
      | error m => simp [runFold, hpe] at h
      | ok u =>
          cases u
          have h2 : (runFold ctx fs es2).2.2 = Except.ok () := by
            simpa [runFold, hpe] using h
          simp [runFold, hpe, ih h2, processEntry_ok ctx fs e hpe]

/-- C8 (amended): after a successful `run`, `outfiles` holds, in
manifest order, one appended element per source (or per empty-source
entry): the destination path string for a regular-file source or a
registered empty directory, but the whole list of copied file paths —
a nested list, not a path string — for a directory source. -/
theorem c8_amended_outfiles (ctx : InstallCtx) (fs : FS) (manifest : List ManifestEntry)
    (h : (run_install ctx fs manifest).2.2 = Except.ok ()) :
    (run_install ctx fs manifest).2.1 = manifest.flatMap (entryOuts ctx fs) :=
  runFold_ok_outs ctx fs manifest h

/-- C8 witness: a manifest mixing a bare file entry, a directory
source and an empty-source entry. -/
theorem c8_amended_witness :
    (run_install ctx7 fs6
      [ManifestEntry.bare "readme.txt", ManifestEntry.pair "openpose" ["models"],
       ManifestEntry.pair "empty" []]).2.1 =
      ([ManifestEntry.bare "readme.txt", ManifestEntry.pair "openpose" ["models"],
        ManifestEntry.pair "empty" []] : List ManifestEntry).flatMap (entryOuts ctx7 fs6) :=
  c8_amended_outfiles ctx7 fs6
    [ManifestEntry.bare "readme.txt", ManifestEntry.pair "openpose" ["models"],
     ManifestEntry.pair "empty" []] rfl

theorem beLoop_dry (ctx : BuildExtCtx) (exec : List String → ProcResult)
    (hdry : ctx.dry_run = true) :
    ∀ (exts : List CMakeExtension) (ev : SpawnEvent),
      BEvent.spawn ev ∈ (beLoop ctx exec exts).1 →
      ev.executed = false ∧ ev.logged = joinSpace ev.cmd := by
  intro exts
  induction exts with
  | nil => intro ev h; simp [beLoop] at h
  | cons ext rest ih =>
      intro ev h
      have h1 : spawn exec (configureCmd ctx ext) ctx.dry_run =
          ({ cmd := configureCmd ctx ext, logged := joinSpace (configureCmd ctx ext),
             executed := false }, Except.ok ()) := by
        rw [hdry]; rfl
      have h2 : spawn exec (buildCmdOf ctx) ctx.dry_run =
          ({ cmd := buildCmdOf ctx, logged := joinSpace (buildCmdOf ctx),
             executed := false }, Except.ok ()) := by
        rw [hdry]; rfl
      rw [beLoop, h1] at h
      simp only at h
      rw [h2] at h
      simp only [List.mem_cons] at h
      rcases h with h | h | h | h
      · exact absurd h (by simp)
      · injection h with h
        subst h
        exact ⟨rfl, rfl⟩
      · injection h with h
        subst h
        exact ⟨rfl, rfl⟩
      · exact ih ev h

/-- C9: in dry-run mode, every spawn of the configure and build phases
(everything after the availability check) logs the joined command line
and is not executed as a process. -/
theorem c9_dry_run_no_exec (ctx : BuildExtCtx) (exec : List String → ProcResult)
    (ev : SpawnEvent) (hdry : ctx.dry_run = true)
    (hmem : BEvent.spawn ev ∈ ((build_extensions ctx exec).1.drop 1)) :
    ev.executed = false ∧ ev.logged = joinSpace ev.cmd := by
  cases h0 : (checkCMake exec).2 with
  | error m =>
      simp [build_extensions, h0] at hmem
  | ok u =>
      cases u
      have : (build_extensions ctx exec).1.drop 1 = (beLoop ctx exec ctx.extensions).1 := by
        simp [build_extensions, h0]
      rw [this] at hmem
      exact beLoop_dry ctx exec hdry ctx.extensions ev hmem

def exec0 : List String → ProcResult := fun _ => ProcResult.launched 0

def ctx9 : BuildExtCtx :=
  { debug := false, dry_run := true, plat := ⟨"Linux", "64bit"⟩, compilerType := "unix",
    build_temp := "build/temp", pyExe := "/usr/bin/python3",
    extFullpathDir := fun _ => "/b/lib",
    cmake_config_args := [], cmake_build_args := [],
    extensions := [⟨"openpose", "/proj"⟩] }

/-- C9 witness: the dry-run build spawn of a concrete context. -/
theorem c9_witness :
    (({ cmd := ["cmake", "--build", ".", "--config", "Release"],
        logged := "cmake --build . --config Release",
        executed := false } : SpawnEvent)).executed = false ∧
    (({ cmd := ["cmake", "--build", ".", "--config", "Release"],
        logged := "cmake --build . --config Release",
        executed := false } : SpawnEvent)).logged =
      joinSpace ["cmake", "--build", ".", "--config", "Release"] :=
  c9_dry_run_no_exec ctx9 exec0
    { cmd := ["cmake", "--build", ".", "--config", "Release"],
      logged := "cmake --build . --config Release", executed := false }
    rfl (by decide)

/-- C10: with dry-run enabled and the availability check succeeding,
`build_extensions` still executes the `cmake --version` spawn as a real
process (that spawn is not passed the dry-run flag) and still performs
`makedirs(build_temp, exist_ok=True)` before the (suppressed) configure
and build spawns of the first extension. -/
theorem c10_dry_run_still_acts (ctx : BuildExtCtx) (exec : List String → ProcResult)
    (ext : CMakeExtension) (exts2 : List CMakeExtension)
    (hdry : ctx.dry_run = true)
    (hver : exec ["cmake", "--version"] = ProcResult.launched 0)
    (hexts : ctx.extensions = ext :: exts2) :
    (build_extensions ctx exec).1 =
      BEvent.spawn ⟨["cmake", "--version"], joinSpace ["cmake", "--version"], true⟩ ::
      BEvent.makedirs ctx.build_temp true ::
      BEvent.spawn ⟨configureCmd ctx ext, joinSpace (configureCmd ctx ext), false⟩ ::
      BEvent.spawn ⟨buildCmdOf ctx, joinSpace (buildCmdOf ctx), false⟩ ::
      (beLoop ctx exec exts2).1 := by
  have hchk : checkCMake exec =
      ({ cmd := ["cmake", "--version"], logged := joinSpace ["cmake", "--version"],
         executed := true }, Except.ok ()) := by
    unfold checkCMake spawn
    rw [hver]
    rfl
  have h1 : spawn exec (configureCmd ctx ext) ctx.dry_run =
      ({ cmd := configureCmd ctx ext, logged := joinSpace (configureCmd ctx ext),
         executed := false }, Except.ok ()) := by
    rw [hdry]; rfl
  have h2 : spawn exec (buildCmdOf ctx) ctx.dry_run =
      ({ cmd := buildCmdOf ctx, logged := joinSpace (buildCmdOf ctx),
         executed := false }, Except.ok ()) := by
    rw [hdry]; rfl
  unfold build_extensions
  rw [hchk]
  simp only [hexts]
  rw [beLoop, h1]
  simp only
  rw [h2]

/-- C10 witness: the full dry-run event trace of a concrete context. -/
theorem c10_witness :
    (build_extensions ctx9 exec0).1 =
      BEvent.spawn ⟨["cmake", "--version"], joinSpace ["cmake", "--version"], true⟩ ::
      BEvent.makedirs ctx9.build_temp true ::
      BEvent.spawn ⟨configureCmd ctx9 ⟨"openpose", "/proj"⟩,
        joinSpace (configureCmd ctx9 ⟨"openpose", "/proj"⟩), false⟩ ::
      BEvent.spawn ⟨buildCmdOf ctx9, joinSpace (buildCmdOf ctx9), false⟩ ::
      (beLoop ctx9 exec0 []).1 :=
  c10_dry_run_still_acts ctx9 exec0 ⟨"openpose", "/proj"⟩ [] rfl rfl rfl
